import Mathlib

/-!
Verification of the snapcast_admin episode administration tool.

The definitions below are a shallow embedding of the Python sources:
the latest revision of the modules (snapcast.py, cli.py, util.py) is
treated as canonical, and the identifier parser and argparse update flow
come from the earlier revision that still contains them.  Network and
object-store effects are made explicit: each operation receives the
response data of the remote services as arguments and returns the list
of calls it issued together with its result.
-/

/-! ## Python character and string primitives -/

/-- Hexadecimal digit test, as accepted by Python int(x, 16). -/
def isHexDigitChar (c : Char) : Bool :=
  c.isDigit || ('a' ≤ c && c ≤ 'f') || ('A' ≤ c && c ≤ 'F')

/-- Value of a hexadecimal digit. -/
def hexDigitVal (c : Char) : Nat :=
  if c.isDigit then c.toNat - 48
  else if 'a' ≤ c && c ≤ 'f' then c.toNat - 87
  else if 'A' ≤ c && c ≤ 'F' then c.toNat - 55
  else 0

/-- Continuation of a decimal digit run: digits, with single underscores
allowed between digits (Python integer literal rule). -/
def digitsGo : List Char → Nat → Option Nat
  | [], acc => some acc
  | '_' :: c :: rest, acc =>
    if c.isDigit then digitsGo rest (acc * 10 + (c.toNat - 48)) else none
  | c :: rest, acc =>
    if c.isDigit then digitsGo rest (acc * 10 + (c.toNat - 48)) else none

/-- A nonempty run of decimal digits with optional single underscores. -/
def pyDigitsVal : List Char → Option Nat
  | [] => none
  | c :: rest => if c.isDigit then digitsGo rest (c.toNat - 48) else none

/-- Python int(s): optional surrounding whitespace, optional sign,
then a digit run.  Returns none where Python raises ValueError. -/
def pyIntParse (s : String) : Option Int :=
  let t1 := s.toList.dropWhile Char.isWhitespace
  let t2 := (t1.reverse.dropWhile Char.isWhitespace).reverse
  match t2 with
  | '+' :: rest => (pyDigitsVal rest).map (fun n => (n : Int))
  | '-' :: rest => (pyDigitsVal rest).map (fun n => -(n : Int))
  | l => (pyDigitsVal l).map (fun n => (n : Int))

/-- Python str.split(sep) for a one-character separator: splits at every
occurrence, keeping empty pieces; the result is never empty. -/
def pySplitChar (sep : Char) : List Char → List (List Char)
  | [] => [[]]
  | c :: cs =>
    if c = sep then [] :: pySplitChar sep cs
    else
      match pySplitChar sep cs with
      | [] => [[c]]
      | g :: gs => (c :: g) :: gs

/-- String-level wrapper for pySplitChar. -/
def pySplitStr (sep : Char) (s : String) : List String :=
  (pySplitChar sep s.toList).map String.mk

/-- Last element of a list of groups (the Python [-1] index); the lists
produced by pySplitChar are always nonempty. -/
def pyLast : List (List Char) → List Char
  | [] => []
  | [g] => g
  | _ :: g2 :: gs => pyLast (g2 :: gs)

/-- Append a character to the last group of a list of groups. -/
def snocLast (x : Char) : List (List Char) → List (List Char)
  | [] => []
  | [g] => [g ++ [x]]
  | g :: g2 :: gs => g :: snocLast x (g2 :: gs)

/-- Python urllib.parse.unquote at the character level: a percent sign
followed by two hex digits decodes to that code point; malformed escapes
are kept verbatim.  (Multi-byte UTF-8 recombination is not modelled;
this is exact on ASCII escapes such as percent-20.) -/
def pyUnquoteGo : Nat → List Char → List Char
  | _, [] => []
  | 0, l => l
  | fuel + 1, '%' :: a :: b :: rest2 =>
    if isHexDigitChar a && isHexDigitChar b then
      Char.ofNat (16 * hexDigitVal a + hexDigitVal b) :: pyUnquoteGo fuel rest2
    else '%' :: pyUnquoteGo fuel (a :: b :: rest2)
  | fuel + 1, c :: rest => c :: pyUnquoteGo fuel rest

/-- Entry point for pyUnquoteGo; each step consumes at least one
character, so the length of the input is enough fuel. -/
def pyUnquote (l : List Char) : List Char := pyUnquoteGo l.length l

/-- Does the first list lead the second one (pattern at the head)? -/
def leadsWith : List Char → List Char → Bool
  | [], _ => true
  | _ :: _, [] => false
  | p :: ps, c :: cs => p == c && leadsWith ps cs

/-- Fuelled worker for listReplace. -/
def listReplaceGo (pat repl : List Char) : Nat → List Char → List Char
  | _, [] => []
  | 0, l => l
  | fuel + 1, c :: rest =>
    if leadsWith pat (c :: rest) then
      repl ++ listReplaceGo pat repl fuel ((c :: rest).drop pat.length)
    else c :: listReplaceGo pat repl fuel rest

/-- Python str.replace: replace every occurrence of a nonempty pattern,
scanning left to right. -/
def listReplace (pat repl l : List Char) : List Char :=
  listReplaceGo pat repl l.length l

/-- One of the two brace characters, written by code point. -/
def isBraceChar (c : Char) : Bool :=
  c == Char.ofNat 123 || c == Char.ofNat 125

/-- Python str.strip of the two brace characters from both ends. -/
def stripBraces (l : List Char) : List Char :=
  ((l.dropWhile isBraceChar).reverse.dropWhile isBraceChar).reverse

/-- Acceptance test of Python uuid.UUID(s): drop every occurrence of the
urn and uuid scheme markers, strip braces from the ends, drop every
hyphen, and require exactly 32 hexadecimal digits. -/
def pyUUIDAccepts (s : String) : Bool :=
  let h1 := listReplace ("urn:".toList) [] s.toList
  let h2 := listReplace ("uuid:".toList) [] h1
  let h3 := stripBraces h2
  let h4 := h3.filter (fun c => c != '-')
  h4.length == 32 && h4.all isHexDigitChar

/-- Canonically shaped UUID in the sense of the specification: 36
characters, hyphens exactly at positions 8, 13, 18 and 23, hexadecimal
digits elsewhere (the 8-4-4-4-12 form). -/
def isCanonicalUuid (s : String) : Bool :=
  let l := s.toList
  l.length == 36 && (List.range 36).all (fun i =>
    if i == 8 || i == 13 || i == 18 || i == 23 then l.getD i ' ' == '-'
    else isHexDigitChar (l.getD i ' '))

/-! ## Errors, wire values and calls -/

deriving instance DecidableEq for Except

/-- The error taxonomy of the tool, one constructor per Python exception
that the embedded code can raise. -/
inductive AdminError where
  | httpError (status : Nat)
  | invalidId (episodeId : String)
  | argumentTypeError (item : String)
  | usageError (field : String)
  | valueError (value : String)
  deriving DecidableEq, Repr

/-- A value as placed into the JSON body of a PATCH request. -/
inductive Wire where
  | str (s : String)
  | int (n : Int)
  | utcIso (t : Int)
  deriving DecidableEq, Repr

/-- A catalog-service HTTP call, as recorded in a trace. -/
inductive NetCall where
  | get (episodeId : String)
  | patch (uuid : String) (fields : List (String × Wire))
  | del (uuid : String)
  deriving DecidableEq, Repr

/-- An object-store (b2) API call, as recorded in a trace. -/
inductive B2Op where
  | authorize
  | getBucket
  | getFileInfo (name : String)
  | deleteVersion (name : String) (version : Nat)
  deriving DecidableEq, Repr

/-- requests Response.raise_for_status raises exactly on 4xx and 5xx. -/
def raisesForStatus (status : Nat) : Bool :=
  decide (400 ≤ status ∧ status < 600)

/-- A successful (2xx) HTTP status. -/
def is2xx (status : Nat) : Bool :=
  decide (200 ≤ status ∧ status < 300)

/-! ## The Episode entity -/

/-- The media_duration field of the dataclass: either the wire integer
(seconds) or a timedelta value, itself carried as whole seconds. -/
inductive PyDuration where
  | int (n : Int)
  | td (seconds : Int)
  deriving DecidableEq, Repr

/-- The pub_date field of the dataclass: either the wire ISO string or a
parsed datetime, abstracted as an integer timestamp. -/
inductive PubDateRepr where
  | str (s : String)
  | dt (t : Int)
  deriving DecidableEq, Repr

/-- The Episode dataclass of snapcast.py, field for field. -/
structure Episode where
  id : Int
  title : String
  subtitle : String
  description : String
  media_url : String
  media_size : Int
  media_type : String
  media_duration : PyDuration
  pub_date : PubDateRepr
  link : String
  image : String
  episode_type : String
  season : Int
  episode : Int
  transcript : String
  transcript_type : String
  uuid : String
  podcast_uuid : Int
  deriving DecidableEq, Repr

/-- Episode.__post_init__: an integer media_duration becomes a timedelta
of that many seconds, a string pub_date is parsed by
datetime.fromisoformat (abstracted as the dtParse argument, which
returns none where fromisoformat raises); values already in canonical
form are left unchanged. -/
def post_init (dtParse : String → Option Int) (e : Episode) :
    Except AdminError Episode :=
  let md := match e.media_duration with
    | .int n => PyDuration.td n
    | .td d => PyDuration.td d
  match e.pub_date with
  | .str s =>
    match dtParse s with
    | some t => .ok { e with media_duration := md, pub_date := PubDateRepr.dt t }
    | none => .error (.valueError s)
  | .dt t => .ok { e with media_duration := md, pub_date := PubDateRepr.dt t }

/-- The enumerated field list of snapcast.py. -/
def database_fields : List String :=
  ["title", "subtitle", "description", "media_url", "media_size",
   "media_type", "media_duration", "pub_date", "link", "image",
   "episode_type", "season", "episode", "transcript", "transcript_type"]

/-- The enumerated field list of the earlier revision. -/
def database_fields_v0 : List String :=
  ["title", "summary", "subtitle", "long_summary", "media_url", "media_size",
   "media_type", "media_duration", "pub_date", "link", "episode_art"]

/-! ## Catalog client -/

/-- episode_info: performs a GET for the identifier and inspects only the
404 status; any other response has its JSON body deserialized into an
Episode (body = none stands for a body that is not an episode object). -/
def episode_info (dtParse : String → Option Int) (episodeId : String)
    (status : Nat) (body : Option Episode) : Except AdminError Episode :=
  if status = 404 then .error (.invalidId episodeId)
  else
    match body with
    | some raw => post_init dtParse raw
    | none => .error (.valueError episodeId)

/-- The generator sum of update_episode: for the reversed component list,
sum 60 to the power of the index times int(component).  none where
int() raises. -/
def durTermSum : Nat → List String → Option Int
  | _, [] => some 0
  | i, v :: rest =>
    match pyIntParse v, durTermSum (i + 1) rest with
    | some n, some r => some ((60 : Int) ^ i * n + r)
    | _, _ => none

/-- The media_duration coercion of update_episode: split on colons,
reverse, and take the weighted sum of the integer components. -/
def media_duration_seconds (value : String) : Option Int :=
  durTermSum 0 ((pySplitStr ':' value).reverse)

/-- Parse every component with Python int; none if any one fails. -/
def parseAll : List String → Option (List Int)
  | [] => some []
  | v :: rest =>
    match pyIntParse v, parseAll rest with
    | some n, some r => some (n :: r)
    | _, _ => none

/-- Modelled from the specification text: components read right to left
as seconds, minutes, hours. -/
def specDurationSeconds : List Int → Option Int
  | [s] => some s
  | [m, s] => some (60 * m + s)
  | [h, m, s] => some (3600 * h + 60 * m + s)
  | _ => none

/-- The field-value coercion of update_episode: media_duration becomes
integer seconds, pub_date is parsed (dtParse abstracts
datetime.fromisoformat) and rendered as a UTC ISO string, every other
field passes through as the raw string. -/
def coerce_value (dtParse : String → Option Int) (field value : String) :
    Except AdminError Wire :=
  match field with
  | "media_duration" =>
    match media_duration_seconds value with
    | some n => .ok (.int n)
    | none => .error (.valueError value)
  | "pub_date" =>
    match dtParse value with
    | some t => .ok (.utcIso t)
    | none => .error (.valueError value)
  | _ => .ok (.str value)

/-- update_episode of snapcast.py: coerce the value, then PATCH the
single field keyed by the episode uuid.  The PATCH response is never
inspected, so the status argument does not influence the result. -/
def update_episode (dtParse : String → Option Int) (episode : Episode)
    (field value : String) (_patchStatus : Nat) :
    List NetCall × Except AdminError Unit :=
  match coerce_value dtParse field value with
  | .error e => ([], .error e)
  | .ok w => ([NetCall.patch episode.uuid [(field, w)]], .ok ())

/-- Is a call a PATCH? -/
def isPatchCall : NetCall → Bool
  | .patch _ _ => true
  | _ => false

/-- The click update command: parameters are processed in declaration
order EPISODE, FIELD, VALUE.  The EPISODE argument is converted by
EpisodeType.convert, which performs the episode_info GET; the FIELD
argument is then validated against database_fields (click Choice); on
success the callback runs update_episode. -/
def click_update (dtParse : String → Option Int)
    (episodeArg fieldArg valueArg : String)
    (fetchStatus : Nat) (fetchBody : Option Episode) (patchStatus : Nat) :
    List NetCall × Except AdminError Unit :=
  match episode_info dtParse episodeArg fetchStatus fetchBody with
  | .error e => ([NetCall.get episodeArg], .error e)
  | .ok ep =>
    if fieldArg ∈ database_fields then
      let r := update_episode dtParse ep fieldArg valueArg patchStatus
      (NetCall.get episodeArg :: r.1, r.2)
    else ([NetCall.get episodeArg], .error (.usageError fieldArg))

/-! ## Identifier parser and the argparse update flow -/

/-- The body of the episode_id_converter loop for one item: try Python
int and require positive or the sentinel -1; if int raises, try
uuid.UUID; if that raises too, the item is invalid. -/
def classifyItem (item : String) : Except AdminError Unit :=
  match pyIntParse item with
  | some n => if n > 0 ∨ n = -1 then .ok () else .error (.argumentTypeError item)
  | none =>
    if pyUUIDAccepts item then .ok () else .error (.argumentTypeError item)

/-- First failing item of a batch, if any (the loop raises at the first
invalid item). -/
def firstFailure (items : List String) : Option AdminError :=
  items.findSome? (fun item =>
    match classifyItem item with
    | .error e => some e
    | .ok _ => none)

/-- episode_id_converter: split the comma-separated batch and validate
every item; any failure rejects the whole batch. -/
def episode_id_converter (s : String) : Except AdminError (List String) :=
  match firstFailure (pySplitStr ',' s) with
  | some e => .error e
  | none => .ok (pySplitStr ',' s)

/-- Resolve each identifier to a uuid through episode_info, recording one
GET per identifier and stopping at the first failure.  The environment
maps an identifier to the GET response. -/
def resolveLoop (dtParse : String → Option Int)
    (env : String → Nat × Option Episode) :
    List String → List NetCall × Except AdminError (List String)
  | [] => ([], .ok [])
  | i :: rest =>
    match episode_info dtParse i (env i).1 (env i).2 with
    | .error e => ([NetCall.get i], .error e)
    | .ok ep =>
      let r := resolveLoop dtParse env rest
      (NetCall.get i :: r.1,
        match r.2 with
        | .error e => .error e
        | .ok us => .ok (ep.uuid :: us))

/-- Coerce every field-value pair of the update payload. -/
def coercePairs (dtParse : String → Option Int) :
    List (String × String) → Except AdminError (List (String × Wire))
  | [] => .ok []
  | (f, v) :: rest =>
    match coerce_value dtParse f v, coercePairs dtParse rest with
    | .ok w, .ok ws => .ok ((f, w) :: ws)
    | .error e, _ => .error e
    | _, .error e => .error e

/-- handle_update of the earlier revision: resolve every identifier to a
uuid (one GET each), coerce the pairs, then send one PATCH with the
whole mapping per resolved uuid.  PATCH responses are not inspected. -/
def handle_update (dtParse : String → Option Int)
    (env : String → Nat × Option Episode)
    (ids : List String) (pairs : List (String × String)) :
    List NetCall × Except AdminError Unit :=
  let r := resolveLoop dtParse env ids
  match r.2 with
  | .error e => (r.1, .error e)
  | .ok uuids =>
    match coercePairs dtParse pairs with
    | .error e => (r.1, .error e)
    | .ok ws => (r.1 ++ uuids.map (fun u => NetCall.patch u ws), .ok ())

/-- The argparse update invocation: the id argument is converted by
episode_id_converter during parsing (before the handler can run and
before any network call); the set argument is validated against the
field list; only then does handle_update execute. -/
def run_update_command (dtParse : String → Option Int)
    (env : String → Nat × Option Episode)
    (idArg : String) (pairs : List (String × String)) :
    List NetCall × Except AdminError Unit :=
  match episode_id_converter idArg with
  | .error e => ([], .error e)
  | .ok ids =>
    if pairs.all (fun p => database_fields_v0.contains p.1) then
      handle_update dtParse env ids pairs
    else ([], .error (.argumentTypeError "field"))

/-! ## Delete and the object-store purge -/

/-- The delete-until-absent loop of delete_episode: look up the current
version of the name; if present, delete it and repeat; when the lookup
reports the name absent, stop.  The store is the stack of remaining
versions; fuel bounds the iterations (none models divergence, which
cannot occur when fuel covers the store). -/
def purgeLoop (filename : String) : Nat → List Nat → Option (List B2Op)
  | _, [] => some [B2Op.getFileInfo filename]
  | 0, _ :: _ => none
  | fuel + 1, v :: rest =>
    (purgeLoop filename fuel rest).map
      (fun ops => B2Op.getFileInfo filename :: B2Op.deleteVersion filename v :: ops)

/-- The delete calls within an object-store trace. -/
def deletions (ops : List B2Op) : List B2Op :=
  ops.filter (fun op =>
    match op with
    | .deleteVersion _ _ => true
    | _ => false)

/-- The object key of delete_episode: the last slash-separated piece of
media_url, percent decoded. -/
def b2Filename (url : String) : String :=
  String.mk (pyUnquote (pyLast (pySplitChar '/' url.toList)))

/-- Modelled from the specification text: the final path segment of
media_url (the trailing run of non-slash characters), percent decoded. -/
def specObjectKey (url : String) : String :=
  String.mk (pyUnquote ((url.toList.reverse.takeWhile (fun c => c != '/')).reverse))

/-- delete_episode of snapcast.py: DELETE the catalog record and call
raise_for_status on the response; only then authorize to the object
store, look up the bucket and run the purge loop on the derived key.
The first component of the result is the object-store call trace. -/
def delete_episode (episode : Episode) (deleteStatus : Nat) (fuel : Nat)
    (store : String → List Nat) :
    Option (List B2Op × Except AdminError Unit) :=
  if raisesForStatus deleteStatus then
    some ([], .error (.httpError deleteStatus))
  else
    let filename := b2Filename episode.media_url
    (purgeLoop filename fuel (store filename)).map
      (fun ops => (B2Op.authorize :: B2Op.getBucket :: ops, .ok ()))

/-! ## Concrete sample values -/

/-- A fromisoformat stub that always fails (never consulted in the
scenarios that use it). -/
def noDt : String → Option Int := fun _ => none

/-- A fetch environment whose responses carry no episode body. -/
def envNone : String → Nat × Option Episode := fun _ => (200, none)

/-- A sample wire-form episode record. -/
def rawEp : Episode :=
  { id := 1, title := "t", subtitle := "st", description := "d",
    media_url := "https://h/x.mp3", media_size := 2,
    media_type := "audio/mpeg",
    media_duration := PyDuration.int 90, pub_date := PubDateRepr.dt 0,
    link := "l", image := "img", episode_type := "full", season := 1,
    episode := 4, transcript := "", transcript_type := "",
    uuid := "u-1", podcast_uuid := 9 }

/-- rawEp after construction (post_init applied). -/
def rawEpNorm : Episode :=
  { rawEp with media_duration := PyDuration.td 90 }

/-- A fixed parse result for the C10 witness. -/
def dtFixed : String → Option Int := fun _ => some 1577836800

/-- An episode given to the constructor fully in wire form. -/
def epWireIn : Episode :=
  { rawEp with media_duration := PyDuration.int 90,
               pub_date := PubDateRepr.str "2020-01-01" }

/-- epWireIn after construction. -/
def epWireOut : Episode :=
  { rawEp with media_duration := PyDuration.td 90,
               pub_date := PubDateRepr.dt 1577836800 }


/-! ## Helper lemmas -/

theorem pySplitChar_ne_nil (sep : Char) (l : List Char) :
    pySplitChar sep l ≠ [] := by
  cases l with
  | nil => simp [pySplitChar]
  | cons c cs =>
    unfold pySplitChar
    by_cases h : c = sep
    · simp [h]
    · rw [if_neg h]
      cases pySplitChar sep cs <;> simp

theorem snocLast_cons (x : Char) (g : List Char) (gs : List (List Char))
    (h : gs ≠ []) : snocLast x (g :: gs) = g :: snocLast x gs := by
  cases gs with
  | nil => exact absurd rfl h
  | cons g2 gs2 => rfl

theorem snocLast_ne_nil (x : Char) (gs : List (List Char)) (h : gs ≠ []) :
    snocLast x gs ≠ [] := by
  cases gs with
  | nil => exact absurd rfl h
  | cons g rest =>
    cases rest with
    | nil => simp [snocLast]
    | cons g2 gs2 => simp [snocLast]

theorem pyLast_cons_of_ne (g : List Char) (gs : List (List Char))
    (h : gs ≠ []) : pyLast (g :: gs) = pyLast gs := by
  cases gs with
  | nil => exact absurd rfl h
  | cons g2 gs2 => rfl

theorem pyLast_append_nil (gs : List (List Char)) :
    pyLast (gs ++ [[]]) = [] := by
  induction gs with
  | nil => rfl
  | cons g rest ih =>
    rw [List.cons_append, pyLast_cons_of_ne g _ (by simp), ih]

theorem pyLast_snocLast (x : Char) (gs : List (List Char)) (h : gs ≠ []) :
    pyLast (snocLast x gs) = pyLast gs ++ [x] := by
  induction gs with
  | nil => exact absurd rfl h
  | cons g rest ih =>
    cases rest with
    | nil => rfl
    | cons g2 gs2 =>
      rw [snocLast_cons x g _ (by simp),
          pyLast_cons_of_ne g _ (snocLast_ne_nil x _ (by simp)),
          pyLast_cons_of_ne g _ (by simp)]
      exact ih (by simp)

theorem pySplitChar_snoc_sep (sep : Char) (xs : List Char) :
    pySplitChar sep (xs ++ [sep]) = pySplitChar sep xs ++ [[]] := by
  induction xs with
  | nil => simp [pySplitChar]
  | cons c cs ih =>
    rw [List.cons_append]
    by_cases h : c = sep
    · simp only [pySplitChar, if_pos h, ih]
      rfl
    · simp only [pySplitChar, if_neg h, ih]
      cases hcs : pySplitChar sep cs with
      | nil => exact absurd hcs (pySplitChar_ne_nil sep cs)
      | cons g gs => rfl

theorem pySplitChar_snoc_ne (sep x : Char) (hx : ¬ x = sep) (xs : List Char) :
    pySplitChar sep (xs ++ [x]) = snocLast x (pySplitChar sep xs) := by
  induction xs with
  | nil =>
    simp only [List.nil_append]
    show pySplitChar sep [x] = snocLast x [[]]
    simp [pySplitChar, snocLast, if_neg hx]
  | cons c cs ih =>
    rw [List.cons_append]
    by_cases h : c = sep
    · simp only [pySplitChar, if_pos h, ih]
      rw [snocLast_cons x [] _ (pySplitChar_ne_nil sep cs)]
    · simp only [pySplitChar, if_neg h, ih]
      cases hcs : pySplitChar sep cs with
      | nil => exact absurd hcs (pySplitChar_ne_nil sep cs)
      | cons g gs =>
        cases gs with
        | nil => rfl
        | cons g2 gs2 => rfl

theorem pyLast_split_rev (sep : Char) (m : List Char) :
    pyLast (pySplitChar sep m.reverse) =
      ((m.takeWhile (fun c => c != sep)).reverse) := by
  induction m with
  | nil => rfl
  | cons x xs ih =>
    rw [List.reverse_cons]
    by_cases hx : x = sep
    · subst hx
      rw [pySplitChar_snoc_sep, pyLast_append_nil]
      simp [List.takeWhile_cons]
    · rw [pySplitChar_snoc_ne sep x hx,
          pyLast_snocLast x _ (pySplitChar_ne_nil sep xs.reverse), ih]
      simp [List.takeWhile_cons, hx]

theorem pyLast_split_eq (sep : Char) (l : List Char) :
    pyLast (pySplitChar sep l) =
      ((l.reverse.takeWhile (fun c => c != sep)).reverse) := by
  have h := pyLast_split_rev sep l.reverse
  rwa [List.reverse_reverse] at h

/-! ## Claim theorems -/

/-- Claim C9: for every Episode, the object-store key used by the delete
operation equals the final slash-separated path segment of media_url,
percent decoded; in particular a media_url ending in the escaped segment
episode-42 percent-20 final.mp3 yields the key with a literal space. -/
theorem b2_key_is_decoded_last_segment :
    (∀ url : String, b2Filename url = specObjectKey url)
    ∧ b2Filename "https://cdn.example.com/file/jbc-external/episode-42%20final.mp3"
        = "episode-42 final.mp3" := by
  constructor
  · intro url
    unfold b2Filename specObjectKey
    rw [pyLast_split_eq]
  · rfl

/-- Claim C8: with n stored versions and enough fuel, the purge loop
terminates successfully and its trace contains exactly one delete per
version, in order, ending when the lookup reports the name absent. -/
theorem purge_deletes_every_version (filename : String) (fuel : Nat)
    (store : List Nat) (hfuel : store.length ≤ fuel) :
    ∃ ops, purgeLoop filename fuel store = some ops ∧
      deletions ops = store.map (fun v => B2Op.deleteVersion filename v) := by
  induction store generalizing fuel with
  | nil => exact ⟨[B2Op.getFileInfo filename], by cases fuel <;> rfl, rfl⟩
  | cons v rest ih =>
    cases fuel with
    | zero => simp at hfuel
    | succ f =>
      have hf : rest.length ≤ f := by simpa using hfuel
      obtain ⟨ops, hops, hdel⟩ := ih f hf
      refine ⟨B2Op.getFileInfo filename :: B2Op.deleteVersion filename v :: ops,
        ?_, ?_⟩
      · show (purgeLoop filename f rest).map _ = _
        rw [hops]
        rfl
      · simp only [deletions, List.filter, List.map] at hdel ⊢
        rw [hdel]

/-- Witness for C8: three versions produce exactly three deletes. -/
theorem purge_deletes_every_version_witness :
    ∃ ops, purgeLoop "f.mp3" 3 [7, 8, 9] = some ops ∧
      deletions ops = [7, 8, 9].map (fun v => B2Op.deleteVersion "f.mp3" v) :=
  purge_deletes_every_version "f.mp3" 3 [7, 8, 9] (by decide)

/-- Claim C1 (amended): if the catalog DELETE response has a 4xx or 5xx
status (where raise_for_status raises, including 404), delete_episode
aborts with that error and no object-store call of any kind is made. -/
theorem delete_aborts_before_purge (episode : Episode)
    (deleteStatus fuel : Nat) (store : String → List Nat)
    (h : raisesForStatus deleteStatus = true) :
    delete_episode episode deleteStatus fuel store
      = some ([], .error (.httpError deleteStatus)) := by
  unfold delete_episode
  rw [if_pos h]

/-- Witness for C1: a 404 on the catalog delete aborts with no store call. -/
theorem delete_aborts_before_purge_witness :
    delete_episode rawEp 404 0 (fun _ => [])
      = some ([], .error (.httpError 404)) :=
  delete_aborts_before_purge rawEp 404 0 (fun _ => []) (by decide)

/-- Counterexample to C1 as stated: 304 is not a 2xx status, yet
delete_episode does not abort there; it runs the purge (object-store
calls happen) and reports success, because raise_for_status only raises
on 4xx and 5xx. -/
theorem delete_not_aborted_on_304 :
    is2xx 304 = false
    ∧ delete_episode rawEp 304 1 (fun _ => [7])
        = some ([B2Op.authorize, B2Op.getBucket, B2Op.getFileInfo "x.mp3",
            B2Op.deleteVersion "x.mp3" 7, B2Op.getFileInfo "x.mp3"],
            Except.ok ()) :=
  ⟨rfl, rfl⟩

/-- Claim C6 (amended): update_episode never inspects the PATCH response
status; its outcome is identical for every status, so a non-2xx remote
failure is silently swallowed rather than raised. -/
theorem update_status_irrelevant (dtParse : String → Option Int)
    (episode : Episode) (field value : String) (s1 s2 : Nat) :
    update_episode dtParse episode field value s1
      = update_episode dtParse episode field value s2 := rfl

/-- Counterexample to C6 as stated: a 500 PATCH response still yields a
successful result, with the PATCH recorded and no error raised. -/
theorem update_swallows_remote_error :
    is2xx 500 = false
    ∧ update_episode noDt rawEp "title" "x" 500
        = ([NetCall.patch "u-1" [("title", Wire.str "x")]], Except.ok ()) :=
  ⟨rfl, rfl⟩

/-- Claim C7 (amended): episode_info treats 404 specially (NotFound); for
every other status the result is computed from the body alone, so two
non-404 statuses are indistinguishable and no RemoteError is raised. -/
theorem episode_info_only_checks_404 (dtParse : String → Option Int)
    (episodeId : String) (body : Option Episode) :
    episode_info dtParse episodeId 404 body
      = .error (.invalidId episodeId)
    ∧ ∀ s1 s2 : Nat, s1 ≠ 404 → s2 ≠ 404 →
        episode_info dtParse episodeId s1 body
          = episode_info dtParse episodeId s2 body := by
  constructor
  · rfl
  · intro s1 s2 h1 h2
    unfold episode_info
    rw [if_neg h1, if_neg h2]

/-- Witness for C7: concrete 404 and the 500 = 200 indistinguishability. -/
theorem episode_info_only_checks_404_witness :
    episode_info noDt "5" 404 (some rawEp) = .error (.invalidId "5")
    ∧ episode_info noDt "5" 500 (some rawEp)
        = episode_info noDt "5" 200 (some rawEp) :=
  ⟨(episode_info_only_checks_404 noDt "5" (some rawEp)).1,
   (episode_info_only_checks_404 noDt "5" (some rawEp)).2 500 200
     (by decide) (by decide)⟩

/-- Counterexample to C7 as stated: a 500 response whose body deserializes
as an episode returns an Episode value, not a RemoteError, although 500
is not a 2xx status. -/
theorem episode_info_500_returns_episode :
    is2xx 500 = false
    ∧ episode_info noDt "5" 500 (some rawEp) = Except.ok rawEpNorm :=
  ⟨rfl, rfl⟩

/-- Claim C2 (amended): an update invocation with a field name outside
database_fields fails before any PATCH is sent; but the episode argument
is converted first, so the episode_info GET can already have happened. -/
theorem update_unknown_field_no_patch (dtParse : String → Option Int)
    (episodeArg fieldArg valueArg : String) (fetchStatus : Nat)
    (fetchBody : Option Episode) (patchStatus : Nat)
    (h : fieldArg ∉ database_fields) :
    ∃ err, click_update dtParse episodeArg fieldArg valueArg fetchStatus
      fetchBody patchStatus = ([NetCall.get episodeArg], .error err) := by
  unfold click_update
  cases hinfo : episode_info dtParse episodeArg fetchStatus fetchBody with
  | error e => exact ⟨e, rfl⟩
  | ok ep => exact ⟨.usageError fieldArg, by simp [h]⟩

/-- Witness for C2: the misspelled field titl is rejected with no PATCH. -/
theorem update_unknown_field_no_patch_witness :
    ∃ err, click_update noDt "1" "titl" "x" 200 (some rawEp) 200
      = ([NetCall.get "1"], .error err) :=
  update_unknown_field_no_patch noDt "1" "titl" "x" 200 (some rawEp) 200
    (by decide)

/-- Counterexample to C2 as stated: with the unknown field titl, the
click update command still performs the episode_info GET before the
field check fails, so a network call does precede the failure. -/
theorem update_unknown_field_fetches_first :
    ("titl" ∉ database_fields)
    ∧ click_update noDt "1" "titl" "x" 200 (some rawEp) 200
        = ([NetCall.get "1"], .error (.usageError "titl"))
    ∧ (click_update noDt "1" "titl" "x" 200 (some rawEp) 200).1 ≠ [] :=
  ⟨by decide, rfl, by decide⟩

/-- Claim C4 (amended): a string parsed by Python int is accepted exactly
when the value is positive or the sentinel -1; a string that int rejects
is accepted exactly when the uuid.UUID constructor accepts it (which is
broader than the canonical 8-4-4-4-12 hyphenated shape). -/
theorem classify_integer_rule :
    (∀ s n, pyIntParse s = some n →
      ((classifyItem s = .ok ()) ↔ (0 < n ∨ n = -1)))
    ∧ (∀ s, pyIntParse s = none →
      ((classifyItem s = .ok ()) ↔ pyUUIDAccepts s = true)) := by
  constructor
  · intro s n h
    unfold classifyItem
    simp only [h]
    by_cases hc : n > 0 ∨ n = -1
    · simp [hc]
    · simp [hc]
  · intro s h
    unfold classifyItem
    simp only [h]
    cases hu : pyUUIDAccepts s with
    | true => simp [hu]
    | false => simp [hu]

/-- Witness for C4: 7 is accepted as numeric, 0 is rejected. -/
theorem classify_integer_rule_witness :
    (classifyItem "7" = .ok ()) ∧ ¬ (classifyItem "0" = .ok ()) :=
  ⟨(classify_integer_rule.1 "7" 7 rfl).mpr (by decide),
   fun hc => absurd ((classify_integer_rule.1 "0" 0 rfl).mp hc) (by decide)⟩

/-- Counterexample to C4 as stated: a 32-hex-digit string with no hyphens
parses as neither an integer nor a canonically shaped UUID, yet
classification accepts it, because uuid.UUID strips hyphens and accepts
any 32 hex digits. -/
theorem classify_accepts_noncanonical_uuid :
    pyIntParse "abcdef00112233445566778899aabbcc" = none
    ∧ isCanonicalUuid "abcdef00112233445566778899aabbcc" = false
    ∧ classifyItem "abcdef00112233445566778899aabbcc" = .ok () :=
  ⟨rfl, rfl, rfl⟩

/-- If some batch item fails classification, the converter reports a
failure. -/
theorem firstFailure_of_mem (items : List String) (bad : String)
    (hmem : bad ∈ items) (hbad : classifyItem bad ≠ .ok ()) :
    firstFailure items ≠ none := by
  induction items with
  | nil => cases hmem
  | cons a rest ih =>
    unfold firstFailure
    rw [List.findSome?_cons]
    cases hca : classifyItem a with
    | error e => simp
    | ok u =>
      simp only [hca]
      cases hmem with
      | head =>
        cases u
        exact absurd hca hbad
      | tail _ hm =>
        have hne := ih hm
        unfold firstFailure at hne
        simpa using hne

/-- Claim C5: if any sub-identifier of a comma-separated batch fails to
parse, the whole update invocation fails during argument parsing and no
network call at all is made, including for items that parsed fine. -/
theorem batch_parse_failure_no_network (dtParse : String → Option Int)
    (env : String → Nat × Option Episode) (idArg : String)
    (pairs : List (String × String)) (bad : String)
    (hmem : bad ∈ pySplitStr ',' idArg)
    (hbad : classifyItem bad ≠ .ok ()) :
    (run_update_command dtParse env idArg pairs).1 = []
    ∧ ∃ err, (run_update_command dtParse env idArg pairs).2 = .error err := by
  have hne := firstFailure_of_mem _ bad hmem hbad
  unfold run_update_command episode_id_converter
  cases hff : firstFailure (pySplitStr ',' idArg) with
  | none => exact absurd hff hne
  | some e => exact ⟨rfl, ⟨e, rfl⟩⟩

/-- Witness for C5: the batch 5,not-a-uuid,7 makes no network call. -/
theorem batch_parse_failure_no_network_witness :
    (run_update_command noDt envNone "5,not-a-uuid,7" []).1 = []
    ∧ ∃ err, (run_update_command noDt envNone "5,not-a-uuid,7" []).2
        = .error err :=
  batch_parse_failure_no_network noDt envNone "5,not-a-uuid,7" []
    "not-a-uuid" (by decide) (by decide)

/-- Every component parses iff parseAll succeeds, with equal lengths. -/
theorem parseAll_length (parts : List String) (ns : List Int)
    (h : parseAll parts = some ns) : ns.length = parts.length := by
  induction parts generalizing ns with
  | nil =>
    simp [parseAll] at h
    subst h
    rfl
  | cons a rest ih =>
    unfold parseAll at h
    cases ha : pyIntParse a with
    | none => rw [ha] at h; exact absurd h (by simp)
    | some n =>
      rw [ha] at h
      cases hr : parseAll rest with
      | none => rw [hr] at h; exact absurd h (by simp)
      | some rs =>
        rw [hr] at h
        simp only [Option.some.injEq] at h
        subst h
        simp [ih rs hr]

/-- Claim C3: for a duration string of one to three colon-separated
non-negative integer components, the coercion returns the total whole
seconds with components read right to left as seconds, minutes, hours. -/
theorem media_duration_matches_spec (value : String) (parts : List String)
    (ns : List Int)
    (hsplit : pySplitStr ':' value = parts)
    (hparse : parseAll parts = some ns)
    (hnn : ∀ n ∈ ns, 0 ≤ n)
    (hlen1 : 1 ≤ ns.length) (hlen3 : ns.length ≤ 3) :
    media_duration_seconds value = specDurationSeconds ns := by
  have hlen := parseAll_length parts ns hparse
  unfold media_duration_seconds
  rw [hsplit]
  rcases parts with _ | ⟨a, _ | ⟨b, _ | ⟨c, _ | ⟨d, t⟩⟩⟩⟩
  · simp [parseAll] at hparse
    subst hparse
    simp at hlen1
  · cases ha : pyIntParse a with
    | none => simp [parseAll, ha] at hparse
    | some n =>
      simp only [parseAll, ha, Option.some.injEq] at hparse
      subst hparse
      show durTermSum 0 [a] = _
      simp [durTermSum, ha, specDurationSeconds]
  · cases ha : pyIntParse a with
    | none => simp [parseAll, ha] at hparse
    | some n =>
      cases hb : pyIntParse b with
      | none => simp [parseAll, ha, hb] at hparse
      | some m =>
        simp only [parseAll, ha, hb, Option.some.injEq] at hparse
        subst hparse
        show durTermSum 0 [b, a] = _
        simp [durTermSum, ha, hb, specDurationSeconds, pow_succ]
        omega
  · cases ha : pyIntParse a with
    | none => simp [parseAll, ha] at hparse
    | some n =>
      cases hb : pyIntParse b with
      | none => simp [parseAll, ha, hb] at hparse
      | some m =>
        cases hc : pyIntParse c with
        | none => simp [parseAll, ha, hb, hc] at hparse
        | some k =>
          simp only [parseAll, ha, hb, hc, Option.some.injEq] at hparse
          subst hparse
          show durTermSum 0 [c, b, a] = _
          simp [durTermSum, ha, hb, hc, specDurationSeconds, pow_succ]
          omega
  · simp at hlen
    omega

/-- Witness for C3: the four example durations of the specification. -/
theorem media_duration_matches_spec_witness :
    media_duration_seconds "90" = some 90
    ∧ media_duration_seconds "1:30" = some 90
    ∧ media_duration_seconds "1:01:30" = some 3690
    ∧ media_duration_seconds "0:00:00" = some 0 :=
  ⟨(media_duration_matches_spec "90" ["90"] [90] rfl rfl (by decide)
      (by decide) (by decide)).trans (by decide),
   (media_duration_matches_spec "1:30" ["1", "30"] [1, 30] rfl rfl (by decide)
      (by decide) (by decide)).trans (by decide),
   (media_duration_matches_spec "1:01:30" ["1", "01", "30"] [1, 1, 30] rfl rfl
      (by decide) (by decide) (by decide)).trans (by decide),
   (media_duration_matches_spec "0:00:00" ["0", "00", "00"] [0, 0, 0] rfl rfl
      (by decide) (by decide) (by decide)).trans (by decide)⟩

/-- Claim C10: every successfully constructed Episode carries
media_duration and pub_date in canonical typed form; a wire integer w
becomes a duration of exactly w seconds, a wire string becomes its
parsed timestamp, and canonical inputs pass through unchanged. -/
theorem post_init_canonicalizes (dtParse : String → Option Int)
    (e e2 : Episode) (h : post_init dtParse e = .ok e2) :
    ((∃ d, e2.media_duration = PyDuration.td d)
      ∧ (∃ t, e2.pub_date = PubDateRepr.dt t))
    ∧ ((∀ w, e.media_duration = PyDuration.int w →
          e2.media_duration = PyDuration.td w)
      ∧ (∀ d, e.media_duration = PyDuration.td d →
          e2.media_duration = PyDuration.td d))
    ∧ ((∀ s, e.pub_date = PubDateRepr.str s →
          ∃ t, dtParse s = some t ∧ e2.pub_date = PubDateRepr.dt t)
      ∧ (∀ t, e.pub_date = PubDateRepr.dt t →
          e2.pub_date = PubDateRepr.dt t)) := by
  unfold post_init at h
  cases hmd : e.media_duration with
  | int w0 =>
    cases hpd : e.pub_date with
    | str s0 =>
      cases hdt : dtParse s0 with
      | none =>
        simp only [hmd, hpd, hdt] at h
        exact absurd h (by simp)
      | some t0 =>
        simp only [hmd, hpd, hdt, Except.ok.injEq] at h
        subst h
        refine ⟨⟨⟨w0, rfl⟩, ⟨t0, rfl⟩⟩, ⟨?_, ?_⟩, ?_, ?_⟩
        · intro w hw
          simp only [PyDuration.int.injEq] at hw
          subst hw
          rfl
        · intro d hd
          simp at hd
        · intro s hs
          simp only [PubDateRepr.str.injEq] at hs
          subst hs
          exact ⟨t0, hdt, rfl⟩
        · intro t ht
          simp at ht
    | dt t0 =>
      simp only [hmd, hpd, Except.ok.injEq] at h
      subst h
      refine ⟨⟨⟨w0, rfl⟩, ⟨t0, rfl⟩⟩, ⟨?_, ?_⟩, ?_, ?_⟩
      · intro w hw
        simp only [PyDuration.int.injEq] at hw
        subst hw
        rfl
      · intro d hd
        simp at hd
      · intro s hs
        simp at hs
      · intro t ht
        simp only [PubDateRepr.dt.injEq] at ht
        subst ht
        rfl
  | td d0 =>
    cases hpd : e.pub_date with
    | str s0 =>
      cases hdt : dtParse s0 with
      | none =>
        simp only [hmd, hpd, hdt] at h
        exact absurd h (by simp)
      | some t0 =>
        simp only [hmd, hpd, hdt, Except.ok.injEq] at h
        subst h
        refine ⟨⟨⟨d0, rfl⟩, ⟨t0, rfl⟩⟩, ⟨?_, ?_⟩, ?_, ?_⟩
        · intro w hw
          simp at hw
        · intro d hd
          simp only [PyDuration.td.injEq] at hd
          subst hd
          rfl
        · intro s hs
          simp only [PubDateRepr.str.injEq] at hs
          subst hs
          exact ⟨t0, hdt, rfl⟩
        · intro t ht
          simp at ht
    | dt t0 =>
      simp only [hmd, hpd, Except.ok.injEq] at h
      subst h
      refine ⟨⟨⟨d0, rfl⟩, ⟨t0, rfl⟩⟩, ⟨?_, ?_⟩, ?_, ?_⟩
      · intro w hw
        simp at hw
      · intro d hd
        simp only [PyDuration.td.injEq] at hd
        subst hd
        rfl
      · intro s hs
        simp at hs
      · intro t ht
        simp only [PubDateRepr.dt.injEq] at ht
        subst ht
        rfl

/-- Witness for C10: a fully wire-form episode is normalized to the
canonical duration and timestamp. -/
theorem post_init_canonicalizes_witness :
    ((∃ d, epWireOut.media_duration = PyDuration.td d)
      ∧ (∃ t, epWireOut.pub_date = PubDateRepr.dt t))
    ∧ ((∀ w, epWireIn.media_duration = PyDuration.int w →
          epWireOut.media_duration = PyDuration.td w)
      ∧ (∀ d, epWireIn.media_duration = PyDuration.td d →
          epWireOut.media_duration = PyDuration.td d))
    ∧ ((∀ s, epWireIn.pub_date = PubDateRepr.str s →
          ∃ t, dtFixed s = some t ∧ epWireOut.pub_date = PubDateRepr.dt t)
      ∧ (∀ t, epWireIn.pub_date = PubDateRepr.dt t →
          epWireOut.pub_date = PubDateRepr.dt t)) :=
  post_init_canonicalizes dtFixed epWireIn epWireOut rfl
